import Mathlib

set_option maxRecDepth 40000

/-!
Verification of the blueprint build-graph engine specification against a
shallow embedding of the engine.  The sources at hand contain the engine's
test suite (context_test.go), the glob bucketing code, and the bootstrap
driver; the graph-engine functions themselves (walkDeps, parallelVisit,
deduplicateOrderOnlyDeps, SourceRootDirAllowed, the package-include gate)
are not part of the sources, so they are modelled from the specification
and validated here against the concrete expectations recorded in
context_test.go.  The glob bucketing functions are embedded directly from
their source.
-/

/-! ## Dependency walk (walkDeps) -/

/-- A module as seen by the dependency walk.  `walkable` is the value the
test visitor's `Walk()` returns (`true` for foo modules, `false` for bar
modules); `deps` is `directDeps` in order, each edge carrying the
`walkerDepsTag.follow` flag.  The test's `depsMutator` adds the ignored
(follow = false) edges before the followed ones. -/
structure WalkModule where
  name : String
  walkable : Bool
  deps : List (String × Bool)
deriving DecidableEq

def findMod (g : List WalkModule) (n : String) : Option WalkModule :=
  g.find? (fun m => m.name == n)

def depsOf (g : List WalkModule) (n : String) : List (String × Bool) :=
  ((findMod g n).map (fun m => m.deps)).getD []

def walkableOf (g : List WalkModule) (n : String) : Bool :=
  ((findMod g n).map (fun m => m.walkable)).getD false

/-- State of a dependency walk: the accumulated down-visit and up-visit
strings (the test visitors append the module name on entry and on exit),
the set of modules already visited at all (used when duplicates are not
allowed: first path wins), and the set of modules whose subtree was
already expanded (a subtree is expanded at most once even when duplicate
visits are allowed). -/
structure WalkState where
  down : String
  up : String
  visited : List String
  expanded : List String

/-- Modelled from the spec: the edge loop of `walkDeps` (the walkDeps
implementation is not among the sources; only its tests are).  For each
direct edge in order: skip the edge entirely when duplicates are not
allowed and the target was already visited; otherwise invoke the down
visitor (which in the tests appends the name and requests recursion only
when the edge's tag has `follow = true` and the target module is
walkable), recurse when requested and the target's subtree has not been
expanded yet, and finally invoke the up visitor.  A module first reached
over an ignored edge is not marked expanded, so a later followed path
still expands its subtree, as spec scenario S3 requires. -/
def walkEdges (g : List WalkModule) (allowDup : Bool) :
    Nat → List (String × Bool) → WalkState → WalkState
  | 0, _, st => st
  | _ + 1, [], st => st
  | fuel + 1, (dep, follow) :: rest, st =>
    let st' :=
      if allowDup || !(st.visited.contains dep) then
        let r0 := follow && walkableOf g dep
        let recurse := r0 && !(st.expanded.contains dep)
        let st1 : WalkState :=
          { st with down := st.down ++ dep, visited := st.visited ++ [dep] }
        let st2 :=
          if recurse then
            walkEdges g allowDup fuel (depsOf g dep)
              { st1 with expanded := st1.expanded ++ [dep] }
          else st1
        { st2 with up := st2.up ++ dep }
      else st
    walkEdges g allowDup fuel rest st'

/-- Modelled from the spec: `walkDeps(root, allowDuplicates, down, up)`
returning the pair of down-visit and up-visit strings produced by the test
visitor `walkDependencyGraph`.  The root itself is not visited. -/
def walkDeps (g : List WalkModule) (root : String) (allowDup : Bool) (fuel : Nat) :
    String × String :=
  let st := walkEdges g allowDup fuel (depsOf g root) ⟨"", "", [], []⟩
  (st.down, st.up)

/-- The graph of TestWalkDeps (spec scenario S1): `A→{B,C}, B→D, C→{E,F},
E→G, F→G`, with B and E bar modules (their subtrees are not walked). -/
def graphWalkOrder : List WalkModule :=
  [ ⟨"A", true, [("B", true), ("C", true)]⟩,
    ⟨"B", false, [("D", true)]⟩,
    ⟨"C", true, [("E", true), ("F", true)]⟩,
    ⟨"D", true, []⟩,
    ⟨"E", false, [("G", true)]⟩,
    ⟨"F", true, [("G", true)]⟩,
    ⟨"G", true, []⟩ ]

/-- The graph of TestWalkDepsDuplicates (spec scenario S2). -/
def graphDuplicates : List WalkModule :=
  [ ⟨"A", true, [("B", true), ("C", true)]⟩,
    ⟨"B", false, [("D", true)]⟩,
    ⟨"C", true, [("E", true), ("F", true)]⟩,
    ⟨"D", true, []⟩,
    ⟨"E", true, [("G", true)]⟩,
    ⟨"F", true, [("G", true), ("G", true)]⟩,
    ⟨"G", true, [("H", true)]⟩,
    ⟨"H", true, []⟩ ]

/-- The graph of TestWalkDepsDuplicates_IgnoreFirstPath (spec scenario
S3): `A→B`, B has `deps = [C]` and `ignored_deps = [D]` (the ignored,
follow = false edge precedes the followed one in directDeps), `C→D`,
`D→E`. -/
def graphIgnoreFirstPath : List WalkModule :=
  [ ⟨"A", true, [("B", true)]⟩,
    ⟨"B", true, [("D", false), ("C", true)]⟩,
    ⟨"C", true, [("D", true)]⟩,
    ⟨"D", true, [("E", true)]⟩,
    ⟨"E", true, []⟩ ]

/-! ## Parallel visitor (parallelVisit) -/

/-- A module as seen by `parallelVisit`, together with the behaviour of
the visitor callback the tests install for it: `fwd` is `forwardDeps` (a
module becomes ready when all of them completed), `pauseOn` makes the
callback pause on that module before recording its own name, and
`cancels` makes the callback return true (cancel) after recording. -/
structure PVModule where
  name : String
  fwd : List String
  pauseOn : Option String
  cancels : Bool
deriving DecidableEq

def pvFind (mods : List PVModule) (n : String) : Option PVModule :=
  mods.find? (fun m => m.name == n)

def pvHas (mods : List PVModule) (n : String) : Bool :=
  (pvFind mods n).isSome

/-- Reverse dependencies of a module among the visited set, in module-list
order (the tests build `reverseDeps` in exactly this order). -/
def pvRevDeps (mods : List PVModule) (n : String) : List String :=
  (mods.filter (fun r => r.fwd.contains n)).map (fun r => r.name)

/-- Scheduler state of the parallel visitor.  `pauseMap` is the list of
pending pauses as `(target, paused)` pairs in arrival order; `backlog`
holds ready modules beyond the parallelism limit; `unpauseBacklog` holds
paused modules whose target completed but that wait for a free slot. -/
structure PVState where
  order : String
  done : List String
  pauseMap : List (String × String)
  waiting : List (String × Nat)
  backlog : List String
  unpauseBacklog : List String
  active : Nat
  cancel : Bool

def getWaiting (w : List (String × Nat)) (n : String) : Nat :=
  (((w.find? (fun p => p.1 == n))).map (fun p => p.2)).getD 0

def setWaiting (w : List (String × Nat)) (n : String) (v : Nat) : List (String × Nat) :=
  w.map (fun p => if p.1 == n then (p.1, v) else p)

/-- Pending scheduler work, processed depth-first so that the sequential
model reproduces the behaviour of the worker pool: `vis` schedules a
ready module (running it if a slot is free, backlogging it otherwise),
`runs` executes a callback up to its pause point or completion, `fin`
records a module's name and completes it, `prop` propagates a completion
to the reverse dependencies, `post` releases the finished worker's slot,
and `drain` starts backlogged and unpauses resumable modules while slots
are free. -/
inductive PVTask where
  | vis (m : String)
  | runs (m : String)
  | fin (m : String)
  | prop (rs : List String)
  | post
  | drain

/-- Modelled from the spec: the scheduling loop of `parallelVisit` (the
implementation is not among the sources; only its tests are).  A callback
that pauses is parked in `pauseMap` and its slot is released.  On
completion the module is marked done, its waiters move to the unpause
backlog, reverse dependencies with no remaining unfinished forward deps
are scheduled, and backlogged work is started up to the parallelism
limit.  A cancel signal empties the backlog and suppresses all completion
processing from then on, so modules paused at cancellation time are never
resumed. -/
def pvExec (mods : List PVModule) (limit : Nat) :
    Nat → List PVTask → PVState → PVState
  | 0, _, st => st
  | _ + 1, [], st => st
  | fuel + 1, t :: rest, st =>
    match t with
    | PVTask.vis m =>
      if st.active < limit then
        pvExec mods limit fuel (PVTask.runs m :: rest) { st with active := st.active + 1 }
      else
        pvExec mods limit fuel rest { st with backlog := st.backlog ++ [m] }
    | PVTask.runs m =>
      match (pvFind mods m).bind (fun x => x.pauseOn) with
      | some p =>
        if st.done.contains p then
          pvExec mods limit fuel (PVTask.fin m :: rest) st
        else
          pvExec mods limit fuel (PVTask.drain :: rest)
            { st with pauseMap := st.pauseMap ++ [(p, m)], active := st.active - 1 }
      | none => pvExec mods limit fuel (PVTask.fin m :: rest) st
    | PVTask.fin m =>
      let st1 := { st with order := st.order ++ m }
      let canc := ((pvFind mods m).map (fun x => x.cancels)).getD false
      let st2 := if canc then { st1 with cancel := true, backlog := [] } else st1
      if st2.cancel then
        pvExec mods limit fuel (PVTask.post :: rest) st2
      else
        let waiters := (st2.pauseMap.filter (fun e => e.1 == m)).map (fun e => e.2)
        let st3 := { st2 with
          done := st2.done ++ [m],
          pauseMap := st2.pauseMap.filter (fun e => !(e.1 == m)),
          unpauseBacklog := st2.unpauseBacklog ++ waiters }
        pvExec mods limit fuel (PVTask.prop (pvRevDeps mods m) :: PVTask.post :: rest) st3
    | PVTask.prop rs =>
      match rs with
      | [] => pvExec mods limit fuel rest st
      | r :: rs' =>
        let w := getWaiting st.waiting r
        let st1 := { st with waiting := setWaiting st.waiting r (w - 1) }
        if w == 1 then
          if st1.active < limit then
            pvExec mods limit fuel (PVTask.runs r :: PVTask.prop rs' :: rest)
              { st1 with active := st1.active + 1 }
          else
            pvExec mods limit fuel (PVTask.prop rs' :: rest)
              { st1 with backlog := st1.backlog ++ [r] }
        else pvExec mods limit fuel (PVTask.prop rs' :: rest) st1
    | PVTask.post =>
      pvExec mods limit fuel (PVTask.drain :: rest) { st with active := st.active - 1 }
    | PVTask.drain =>
      if st.active < limit then
        match st.backlog with
        | m :: bs =>
          pvExec mods limit fuel (PVTask.runs m :: PVTask.drain :: rest)
            { st with backlog := bs, active := st.active + 1 }
        | [] =>
          match st.unpauseBacklog with
          | p :: ps =>
            pvExec mods limit fuel (PVTask.fin p :: PVTask.drain :: rest)
              { st with unpauseBacklog := ps, active := st.active + 1 }
          | [] => pvExec mods limit fuel rest st
      else pvExec mods limit fuel rest st

/-- Targets a module is paused on, read from the pause map. -/
def pvPauseTargets (pm : List (String × String)) (x : String) : List String :=
  (pm.filter (fun e => e.2 == x)).map (fun e => e.1)

/-- Nodes reachable in one step along the dependency relation used by
cycle detection: real forward deps within the visited set, then pause
edges of the module. -/
def pvNeighbors (mods : List PVModule) (pm : List (String × String)) (x : String) : List String :=
  (((pvFind mods x).map (fun m => m.fwd)).getD []).filter (pvHas mods) ++ pvPauseTargets pm x

/-- Modelled from the spec: the cycle search.  `Sum.inl x` explores one
node (skipping finished modules and nodes already on the current path,
succeeding when the searched-for end module is reached, and appending the
node to a found cycle so that the list reads back-to-front), `Sum.inr ys`
tries a list of neighbours in order. -/
def pvCheck (mods : List PVModule) (dones : List String) (pm : List (String × String))
    (endM : String) : Nat → List String → Sum String (List String) → Option (List String)
  | 0, _, _ => none
  | fuel + 1, seen, Sum.inl x =>
    if dones.contains x then none
    else if x == endM then some [x]
    else if seen.contains x then none
    else
      match pvCheck mods dones pm endM fuel (seen ++ [x]) (Sum.inr (pvNeighbors mods pm x)) with
      | some cyc => some (cyc ++ [x])
      | none => none
  | _ + 1, _, Sum.inr [] => none
  | fuel + 1, seen, Sum.inr (y :: ys) =>
    match pvCheck mods dones pm endM fuel seen (Sum.inl y) with
    | some cyc => some cyc
    | none => pvCheck mods dones pm endM fuel seen (Sum.inr ys)

/-- Try each pending pause whose target is the given module: search for a
path from the pause target back to the paused module. -/
def pvCycleFromSpecs (mods : List PVModule) (dones : List String)
    (pm : List (String × String)) (fuel : Nat) :
    List (String × String) → Option (List String)
  | [] => none
  | (u, p) :: rest =>
    match pvCheck mods dones pm p fuel [] (Sum.inl u) with
    | some cyc => some cyc
    | none => pvCycleFromSpecs mods dones pm fuel rest

/-- Iterate over the module list (instead of the pause map) for a
deterministic order, trying the pauses keyed by each module. -/
def pvFindCycle (mods : List PVModule) (dones : List String)
    (pm : List (String × String)) (fuel : Nat) :
    List PVModule → Option (List String)
  | [] => none
  | m :: rest =>
    match pvCycleFromSpecs mods dones pm fuel (pm.filter (fun e => e.1 == m.name)) with
    | some cyc => some cyc
    | none => pvFindCycle mods dones pm fuel rest

def pvEdgeStrings : String → List String → List String
  | _, [] => []
  | cur, n :: rest =>
    ("module \"" ++ cur ++ "\" depends on module \"" ++ n ++ "\"") :: pvEdgeStrings n rest

/-- Modelled from the spec: the dependency-cycle error list.  The cycle
list is in reverse order; the printer starts from its head and walks the
reversed list, emitting one canonical edge line per step after the
header. -/
def pvCycleErrors (mods : List PVModule) (st : PVState) : List String :=
  match pvFindCycle mods st.done st.pauseMap 100 mods with
  | some (c0 :: cs) =>
    "encountered dependency cycle" :: pvEdgeStrings c0 (c0 :: cs).reverse
  | _ => ["encountered dependency cycle"]

/-- Modelled from the spec: `parallelVisit(modules, bottomUp, limit,
visitor)`.  Initial waiting counts are the numbers of forward deps within
the visited set; initially ready modules are scheduled in list order.
The result is the recorded visit order and the error list: empty on
normal completion and on cancellation, the cycle error list when the
scheduler wedges with pending pauses. -/
def parallelVisit (mods : List PVModule) (limit fuel : Nat) : String × List String :=
  let waiting := mods.map (fun m => (m.name, (m.fwd.filter (pvHas mods)).length))
  let ready := (mods.filter (fun m => getWaiting waiting m.name == 0)).map (fun m => m.name)
  let st := pvExec mods limit fuel (ready.map PVTask.vis)
    ⟨"", [], [], waiting, [], [], 0, false⟩
  if st.cancel then (st.order, [])
  else if mods.all (fun m => st.done.contains m.name) then (st.order, [])
  else if st.pauseMap.isEmpty then (st.order, ["deadlock"])
  else (st.order, pvCycleErrors mods st)

/-- Stable depth-first postorder over `forwardDeps` in adjacency-list
order, the order the spec calls "the exact reverse-topo order defined by
forwardDeps adjacency-list order".  `Sum.inl m` visits one module (its
forward deps first, then the module itself); `Sum.inr ms` visits a list
in order.  The accumulator is the emit list and doubles as the visited
set. -/
def dfsPostGo (mods : List PVModule) :
    Nat → List String → Sum String (List String) → List String
  | 0, acc, _ => acc
  | fuel + 1, acc, Sum.inl m =>
    if acc.contains m then acc
    else
      (dfsPostGo mods fuel acc
        (Sum.inr ((((pvFind mods m).map (fun x => x.fwd)).getD []).filter (pvHas mods)))) ++ [m]
  | _ + 1, acc, Sum.inr [] => acc
  | fuel + 1, acc, Sum.inr (y :: ys) =>
    dfsPostGo mods fuel (dfsPostGo mods fuel acc (Sum.inl y)) (Sum.inr ys)

def reverseTopoPostorder (mods : List PVModule) (fuel : Nat) : String :=
  String.join (dfsPostGo mods fuel [] (Sum.inr (mods.map (fun m => m.name))))

/-- Modules of Test_parallelVisit, "bottom up" and "cancel" runs:
`A→B→C`; in the cancel run the callback cancels at B. -/
def pvBottomUpMods : List PVModule :=
  [ ⟨"A", ["B"], none, false⟩, ⟨"B", ["C"], none, false⟩, ⟨"C", [], none, false⟩ ]

def pvCancelMods : List PVModule :=
  [ ⟨"A", ["B"], none, false⟩, ⟨"B", ["C"], none, true⟩, ⟨"C", [], none, false⟩ ]

/-- Modules of the "pause" run (spec scenario S4): `A→B→C`, D isolated,
C's callback pauses on D before recording its name. -/
def pvPauseMods : List PVModule :=
  [ ⟨"A", ["B"], none, false⟩, ⟨"B", ["C"], none, false⟩,
    ⟨"C", [], some "D", false⟩, ⟨"D", [], none, false⟩ ]

/-- Modules of the "pause and cancel" run: C pauses on D, D cancels. -/
def pvPauseCancelMods : List PVModule :=
  [ ⟨"A", ["B"], none, false⟩, ⟨"B", ["C"], none, false⟩,
    ⟨"C", [], some "D", false⟩, ⟨"D", [], none, true⟩ ]

/-- Modules of the "pause existing" run: A pauses on its own dependency
B, which has completed by the time A runs. -/
def pvPauseExistingMods : List PVModule :=
  [ ⟨"A", ["B"], some "B", false⟩, ⟨"B", ["C"], none, false⟩, ⟨"C", [], none, false⟩ ]

/-- Modules of the "cycle" run: real deps `A→B→C` and C pauses on A. -/
def pvMixedCycleMods : List PVModule :=
  [ ⟨"A", ["B"], none, false⟩, ⟨"B", ["C"], none, false⟩, ⟨"C", [], some "A", false⟩ ]

/-- Modules of the "pause cycle" run: C pauses on D and D pauses on C. -/
def pvPauseCycleMods : List PVModule :=
  [ ⟨"A", ["B"], none, false⟩, ⟨"B", ["C"], none, false⟩,
    ⟨"C", [], some "D", false⟩, ⟨"D", [], some "C", false⟩ ]

/-- Modules of the "pause cycle with deps" run (spec scenario S5): no
real deps among D,E,F,G; F pauses on G, G pauses on F, D pauses on E, E
pauses on F. -/
def pvPauseCycleDepsMods : List PVModule :=
  [ ⟨"D", [], some "E", false⟩, ⟨"E", [], some "F", false⟩,
    ⟨"F", [], some "G", false⟩, ⟨"G", [], some "F", false⟩ ]

/-! ## Phony order-only deduplication (deduplicateOrderOnlyDeps) -/

/-- FNV-1a 64-bit hash of a byte list, as computed by Go's
`hash/fnv.New64a`: offset basis 14695981039346656037, prime
1099511628211, arithmetic modulo 2^64, xor before multiply. -/
def fnv64a (bytes : List Nat) : Nat :=
  bytes.foldl (fun h b => ((h ^^^ b) * 1099511628211) % 18446744073709551616)
    14695981039346656037

/-- Bytes of a string.  The strings involved are ASCII, for which the
UTF-8 bytes coincide with the character code points. -/
def strBytes (s : String) : List Nat :=
  s.data.map Char.toNat

def hexChar (n : Nat) : Char :=
  if n < 10 then Char.ofNat (48 + n) else Char.ofNat (87 + n)

def natToHexAux : Nat → Nat → List Char
  | 0, _ => []
  | _ + 1, 0 => []
  | fuel + 1, n => natToHexAux fuel (n / 16) ++ [hexChar (n % 16)]

/-- Lowercase hexadecimal rendering without leading zeros, as produced by
Go's `strconv.FormatUint(h, 16)`. -/
def natToHex (n : Nat) : String :=
  if n == 0 then "0" else String.mk (natToHexAux 64 n)

def lexLe : List Nat → List Nat → Bool
  | [], _ => true
  | _ :: _, [] => false
  | a :: as, b :: bs => if a < b then true else if b < a then false else lexLe as bs

def strLe (a b : String) : Bool := lexLe (strBytes a) (strBytes b)

def insertStr (x : String) : List String → List String
  | [] => [x]
  | y :: ys => if strLe x y then x :: y :: ys else y :: insertStr x ys

def sortStrings : List String → List String
  | [] => []
  | x :: xs => insertStr x (sortStrings xs)

/-- A build definition, restricted to the fields the deduplication pass
reads and writes: `OutputStrings`, `InputStrings`, `OrderOnlyStrings`. -/
structure BuildDefM where
  outputs : List String
  inputs : List String
  orderOnly : List String
deriving DecidableEq

def sortedKey (b : BuildDefM) : List String := sortStrings b.orderOnly

def allDefs (modules : List (List BuildDefM)) : List BuildDefM := modules.flatten

/-- Grouping keys (sorted order-only lists) in the order they are first
encountered while scanning modules and their build defs. -/
def dedupKeys (modules : List (List BuildDefM)) : List (List String) :=
  (allDefs modules).foldl
    (fun acc b =>
      if b.orderOnly.isEmpty then acc
      else if acc.contains (sortedKey b) then acc else acc ++ [sortedKey b]) []

def keyCount (modules : List (List BuildDefM)) (k : List String) : Nat :=
  ((allDefs modules).filter (fun b => !b.orderOnly.isEmpty && sortedKey b == k)).length

/-- Name of the phony aggregate for a sorted order-only list: "dedup-"
followed by the FNV-1a 64 hex hash of the concatenated sorted list. -/
def phonyName (k : List String) : String :=
  "dedup-" ++ natToHex (fnv64a (strBytes (String.join k)))

/-- Modelled from the spec: `deduplicateOrderOnlyDeps(modules)` (the
implementation is not among the sources; only its test is).  Build defs
are grouped by the sorted tuple of their order-only list; every group of
size at least two yields one phony aggregate (output the dedup name,
inputs the sorted list, no order-only), emitted in first-encounter order,
and each participating def's order-only list is replaced by the aggregate
output.  Groups of size one are left unchanged.  Returns the phony list
and the rewritten per-module build defs. -/
def deduplicateOrderOnlyDeps (modules : List (List BuildDefM)) :
    List BuildDefM × List (List BuildDefM) :=
  let keys := (dedupKeys modules).filter (fun k => decide (2 ≤ keyCount modules k))
  let phonys := keys.map (fun k =>
    ({ outputs := [phonyName k], inputs := k, orderOnly := [] } : BuildDefM))
  let rewritten := modules.map (fun bds => bds.map (fun b =>
    if !b.orderOnly.isEmpty && keys.contains (sortedKey b) then
      { b with orderOnly := [phonyName (sortedKey b)] }
    else b))
  (phonys, rewritten)

/-- The modules of TestDeduplicateOrderOnlyDeps testcase 3 (spec scenario
S6): order-only dep sets are, per def, ab, ab, ac, ac. -/
def s6modules : List (List BuildDefM) :=
  [ [ ⟨["A"], [], ["a", "b"]⟩, ⟨["B"], [], ["a", "b"]⟩ ],
    [ ⟨["C"], [], ["a", "c"]⟩, ⟨["D"], [], ["a", "c"]⟩ ] ]

/-- The modules of TestDeduplicateOrderOnlyDeps testcase 2: sets a, b, a;
the group of size one (b) must be left unchanged. -/
def sizeOneModules : List (List BuildDefM) :=
  [ [ ⟨["A"], [], ["a"]⟩ ], [ ⟨["B"], [], ["b"]⟩ ], [ ⟨["C"], [], ["a"]⟩ ] ]

/-- The modules of TestDeduplicateOrderOnlyDeps testcase 0: both defs
share the order-only set d. -/
def sharedDModules : List (List BuildDefM) :=
  [ [ ⟨["A"], [], ["d"]⟩ ], [ ⟨["B"], [], ["d"]⟩ ] ]

/-- The modules of TestDeduplicateOrderOnlyDeps testcase 1: two disjoint
singleton sets; no deduplication happens. -/
def disjointModules : List (List BuildDefM) :=
  [ [ ⟨["A"], [], ["a"]⟩ ], [ ⟨["B"], [], ["b"]⟩ ] ]

/-! ## Source-root filtering (SourceRootDirs) -/

/-- A parsed source-root entry: path components of the prefix ([] for the
empty prefix, which matches every path) and whether the entry allows or
denies. -/
structure SourceRootDir where
  comps : List String
  allow : Bool
deriving DecidableEq

def splitSlashAux (cur : List Char) : List Char → List String
  | [] => [String.mk cur.reverse]
  | c :: cs =>
    if c == '/' then String.mk cur.reverse :: splitSlashAux [] cs
    else splitSlashAux (c :: cur) cs

def splitSlash (s : String) : List String := splitSlashAux [] s.data

/-- Modelled from the spec: `SourceRootDirs.Add` accepts entries with an
optional leading minus marking a deny entry. -/
def parseRootDir (s : String) : SourceRootDir :=
  match s.data with
  | '-' :: rest => ⟨if rest.isEmpty then [] else splitSlashAux [] rest, false⟩
  | cs => ⟨if cs.isEmpty then [] else splitSlashAux [] cs, true⟩

def addSourceRootDirs (entries : List String) : List SourceRootDir :=
  entries.map parseRootDir

/-- Component-wise path-prefix test: every component of the first list
must equal the corresponding leading component of the second. -/
def compsMatch : List String → List String → Bool
  | [], _ => true
  | _ :: _, [] => false
  | a :: as, b :: bs => a == b && compsMatch as bs

def joinComps : List String → String
  | [] => ""
  | [x] => x
  | x :: xs => x ++ "/" ++ joinComps xs

/-- Modelled from the spec: `SourceRootDirs.SourceRootDirAllowed(path)`
(the implementation is not among the sources; only its tests are).  Walk
the entry list in order; the longest matching prefix wins and among
equal-length matches the later entry wins.  A path matched by no entry is
allowed with deciding prefix "". -/
def sourceRootDirAllowed (dirs : List SourceRootDir) (path : String) : Bool × String :=
  let pcs := splitSlash path
  let best := dirs.foldl
    (fun best d =>
      if compsMatch d.comps pcs then
        match best with
        | none => some d
        | some b => if b.comps.length ≤ d.comps.length then some d else some b
      else best)
    (none : Option SourceRootDir)
  match best with
  | none => (true, "")
  | some d => (d.allow, joinComps d.comps)

/-- The entry list of spec scenario S7. -/
def s7dirs : List SourceRootDir :=
  addSourceRootDirs ["-a", "a/c/F", "a/b/D", "a/b", "a/c", "-a/b/d"]

/-! ## Package-include gating -/

/-- A parsed blueprint file as far as package-include gating is
concerned: its path, the `match_all` list of a
`blueprint_package_includes` block when one is present, and the names of
the other module blocks. -/
structure BpFileM where
  path : String
  matchAll : Option (List String)
  moduleNames : List String
deriving DecidableEq

/-- Modelled from the spec: a file's module blocks survive when every tag
of its `match_all` list is present in the context's include-tag set; a
file without a package-includes block always survives. -/
def fileIncluded (tags : List String) (f : BpFileM) : Bool :=
  match f.matchAll with
  | none => true
  | some req => req.all (fun t => tags.contains t)

def commitNames (path : String) :
    List String → List (String × String) → Except String (List (String × String))
  | [], acc => Except.ok acc
  | n :: ns, acc =>
    if (acc.find? (fun e => e.1 == n)).isSome then
      Except.error ("module \"" ++ n ++ "\" already defined")
    else commitNames path ns (acc ++ [(n, path)])

/-- Modelled from the spec: the module-committing part of
`ParseFileList`.  Files whose gate fails are discarded silently; a second
definition of an already-defined module name is a duplicate-module
error.  Returns the committed (name, defining file) list. -/
def parseFileList (tags : List String) :
    List BpFileM → List (String × String) → Except String (List (String × String))
  | [], acc => Except.ok acc
  | f :: fs, acc =>
    if fileIncluded tags f then
      match commitNames f.path f.moduleNames acc with
      | Except.ok acc2 => parseFileList tags fs acc2
      | Except.error e => Except.error e
    else parseFileList tags fs acc

/-- The two files of TestPackageIncludes (spec scenario S8): each gates
on its own tag and defines module "foo". -/
def packageFiles : List BpFileM :=
  [ ⟨"dir1/Android.bp", some ["use_dir1"], ["foo"]⟩,
    ⟨"dir2/Android.bp", some ["use_dir2"], ["foo"]⟩ ]

/-! ## Glob bucketing (embedded from the source) -/

def numGlobBuckets : Nat := 1024

/-- A glob result as hashed by `globToBucket`: the UTF-8 bytes of the
pattern and of each exclude pattern. -/
structure GlobResult where
  pattern : List Nat
  excludes : List (List Nat)

/-- FNV-1a 32-bit hash, as computed by Go's `hash/fnv.New32a`: offset
basis 2166136261, prime 16777619, arithmetic modulo 2^32. -/
def fnv32a (bytes : List Nat) : Nat :=
  bytes.foldl (fun h b => ((h ^^^ b) * 16777619) % 4294967296) 2166136261

/-- `globToBucket(g)`: the FNV-32a hash of the pattern followed by the
excludes, reduced modulo `numGlobBuckets`. -/
def globToBucket (g : GlobResult) : Nat :=
  fnv32a (g.pattern ++ g.excludes.flatten) % numGlobBuckets

/-- `globBucketName(globDir, i)`: the file-list file of one bucket. -/
def globBucketName (globDir : String) (i : Nat) : String :=
  globDir ++ "/" ++ toString i

/-- `GlobFileListFiles(globDir)`: the file-list file of every bucket. -/
def globFileListFiles (globDir : String) : List String :=
  (List.range numGlobBuckets).map (globBucketName globDir)

/-- The bucket-sorting loop of `GlobSingleton.GenerateBuildActions`: each
glob is appended to the bucket selected by `globToBucket`. -/
def globBuckets (globs : List GlobResult) : List (List GlobResult) :=
  globs.foldl
    (fun bs g => bs.set (globToBucket g) (bs.getD (globToBucket g) [] ++ [g]))
    (List.replicate numGlobBuckets [])

/-- The emission loop of `GlobSingleton.GenerateBuildActions`: for every
bucket index, one file-list file (with the bucket's globs written to it)
and one glob rule. -/
def generateBuildActions (globDir : String) (globs : List GlobResult) :
    List (String × List GlobResult) :=
  List.zipWith (fun i bucket => (globBucketName globDir i, bucket))
    (List.range numGlobBuckets) (globBuckets globs)

/-! ## Theorems -/

/-- Claim C1: for the graph A→B with B having deps=[C] and
ignored_deps=[D], C→D, D→E, the call walkDeps(A, allowDuplicates=true)
produces the down-visit sequence "BDCDE" and the up-visit sequence
"DEDCB": although D is first reached via a follow=false edge, the later
followed path B→C→D still expands D's subtree (visiting E). -/
theorem walkDeps_ignore_first_path :
    walkDeps graphIgnoreFirstPath "A" true 100 = ("BDCDE", "DEDCB") := by decide

/-- Validation of the model against TestWalkDepsDuplicates (spec scenario
S2): down "BCEGHFGG", up "BHGEGGFC". -/
theorem walkDeps_with_duplicates :
    walkDeps graphDuplicates "A" true 100 = ("BCEGHFGG", "BHGEGGFC") := by decide

/-- Claim C8: for the S1 graph, walkDeps(A, allowDuplicates=false)
produces down "BCEFG" and up "BEGFC", every module is visited at most
once in down and at most once in up, and the root A itself is never
visited. -/
theorem walkDeps_no_duplicates :
    walkDeps graphWalkOrder "A" false 100 = ("BCEFG", "BEGFC") ∧
    (∀ c : Char, (walkDeps graphWalkOrder "A" false 100).1.data.count c ≤ 1) ∧
    (∀ c : Char, (walkDeps graphWalkOrder "A" false 100).2.data.count c ≤ 1) ∧
    (walkDeps graphWalkOrder "A" false 100).1.data.count 'A' = 0 ∧
    (walkDeps graphWalkOrder "A" false 100).2.data.count 'A' = 0 := by
  have h : walkDeps graphWalkOrder "A" false 100 = ("BCEFG", "BEGFC") := by decide
  refine ⟨h, ?_, ?_, ?_, ?_⟩ <;> rw [h]
  · exact List.nodup_iff_count_le_one.mp (by decide)
  · exact List.nodup_iff_count_le_one.mp (by decide)
  · decide
  · decide

/-- Claim C2: for four modules where F pauses on G, G pauses on F, D
pauses on E and E pauses on F, the cycle error lists exactly the two
edges G depends on F and F depends on G in canonical form, with no edges
for the non-cycle pauses D→E and E→F. -/
theorem parallelVisit_pause_cycle_error :
    parallelVisit pvPauseCycleDepsMods 4 200 =
      ("", ["encountered dependency cycle",
            "module \"G\" depends on module \"F\"",
            "module \"F\" depends on module \"G\""]) := by decide

/-- Validation of the model against the "cycle" run of
Test_parallelVisit: a mixed pause+real cycle C→A→B→C. -/
theorem parallelVisit_mixed_cycle_error :
    parallelVisit pvMixedCycleMods 3 200 =
      ("", ["encountered dependency cycle",
            "module \"C\" depends on module \"A\"",
            "module \"A\" depends on module \"B\"",
            "module \"B\" depends on module \"C\""]) := by decide

/-- Validation of the model against the "pause cycle" run of
Test_parallelVisit: a pure pause cycle between C and D. -/
theorem parallelVisit_pure_pause_cycle_error :
    parallelVisit pvPauseCycleMods 3 200 =
      ("", ["encountered dependency cycle",
            "module \"D\" depends on module \"C\"",
            "module \"C\" depends on module \"D\""]) := by decide

/-- Validation of the model against the "bottom up", "parallel" and
"pause existing" runs of Test_parallelVisit. -/
theorem parallelVisit_bottom_up_runs :
    parallelVisit pvBottomUpMods 1 200 = ("CBA", []) ∧
    parallelVisit pvBottomUpMods 3 200 = ("CBA", []) ∧
    parallelVisit pvPauseExistingMods 3 200 = ("CBA", []) := by decide

/-- Claim C3 counterexample: in the S4 scenario (modules [A,B,C,D] with
A→B→C, D isolated, C pausing on D before recording) the recorded visit
order is "DCBA", whereas the reverse-topological postorder determined by
forwardDeps adjacency-list order for these modules is "CBAD"; the
recorded order is therefore not that postorder, refuting the claim's
universal part on the claim's own scenario. -/
theorem parallelVisit_postorder_claim_false :
    (parallelVisit pvPauseMods 1 200).1 = "DCBA" ∧
    reverseTopoPostorder pvPauseMods 100 = "CBAD" ∧
    (parallelVisit pvPauseMods 1 200).1 ≠ reverseTopoPostorder pvPauseMods 100 := by
  decide

/-- Claim C3 as amended: with parallelism=1 the visit is deterministic; a
callback that pauses defers its own recording until after its pause
target completes, so for [A,B,C,D] with A→B→C, D isolated and C pausing
on D the recorded order is "DCBA" with no error, while without pauses the
bottom-up order for [A,B,C] with A→B→C is the reverse-topological
postorder "CBA". -/
theorem parallelVisit_pause_order :
    parallelVisit pvPauseMods 1 200 = ("DCBA", []) ∧
    parallelVisit pvBottomUpMods 1 200 = ("CBA", []) := by decide

/-- Claim C7 counterexample: in the "pause and cancel" scenario
([A,B,C,D] where C pauses on D and D cancels) the recorded order is
exactly "D": module C's paused callback is never resumed and never
records its name, refuting the claim that every pending pause runs to
completion after cancellation. -/
theorem parallelVisit_cancel_claim_false :
    parallelVisit pvPauseCancelMods 1 200 = ("D", []) ∧
    (parallelVisit pvPauseCancelMods 1 200).1.data.count 'C' = 0 := by decide

/-- Claim C7 as amended: a cancel signal stops the pool from dequeuing
new work and parallelVisit returns with no error; callbacks already
running complete (cancel in B for A→B→C records "CB"), but a callback
paused at cancellation time is not resumed even when its pause target
completes in the same invocation: with C paused on D and D cancelling,
only "D" is recorded. -/
theorem parallelVisit_cancel_behaviour :
    parallelVisit pvCancelMods 1 200 = ("CB", []) ∧
    parallelVisit pvPauseCancelMods 1 200 = ("D", []) := by decide

/-- Claim C4: phony deduplication groups build defs by the sorted tuple
of their order-only list; for the S6 modules (sets ab, ab, ac, ac) it
synthesizes exactly the two aggregates dedup-<fnv64a("ab")> and
dedup-<fnv64a("ac")> with the sorted lists as inputs, rewriting each
participant's order-only list to the single aggregate output, and for the
modules with sets a, b, a the size-one group b is left unchanged. -/
theorem deduplicateOrderOnlyDeps_groups :
    deduplicateOrderOnlyDeps s6modules =
      ([ ⟨["dedup-89c4407b545986a"], ["a", "b"], []⟩,
         ⟨["dedup-89c4507b5459a1d"], ["a", "c"], []⟩ ],
       [ [ ⟨["A"], [], ["dedup-89c4407b545986a"]⟩,
           ⟨["B"], [], ["dedup-89c4407b545986a"]⟩ ],
         [ ⟨["C"], [], ["dedup-89c4507b5459a1d"]⟩,
           ⟨["D"], [], ["dedup-89c4507b5459a1d"]⟩ ] ]) ∧
    deduplicateOrderOnlyDeps sizeOneModules =
      ([ ⟨["dedup-af63dc4c8601ec8c"], ["a"], []⟩ ],
       [ [ ⟨["A"], [], ["dedup-af63dc4c8601ec8c"]⟩ ],
         [ ⟨["B"], [], ["b"]⟩ ],
         [ ⟨["C"], [], ["dedup-af63dc4c8601ec8c"]⟩ ] ]) ∧
    "dedup-89c4407b545986a" = phonyName ["a", "b"] ∧
    "dedup-89c4507b5459a1d" = phonyName ["a", "c"] := by decide

/-- Claim C5 counterexample: phony deduplication is not idempotent.  For
two modules sharing the order-only set d, the first application rewrites
both defs to the aggregate dedup-af63d94c8601e773; those two rewritten
defs then share that singleton set, so the second application synthesizes
a further aggregate (hashing the first aggregate's name) and rewrites the
order-only lists again, contradicting the claim that a second application
creates no new phony aggregates and rewrites nothing. -/
theorem deduplicateOrderOnlyDeps_not_idempotent :
    (deduplicateOrderOnlyDeps (deduplicateOrderOnlyDeps sharedDModules).2).1 =
      [ ⟨["dedup-6b39ba94c0c11023"], ["dedup-af63d94c8601e773"], []⟩ ] ∧
    (deduplicateOrderOnlyDeps (deduplicateOrderOnlyDeps sharedDModules).2).2 ≠
      (deduplicateOrderOnlyDeps sharedDModules).2 := by decide

/-- Claim C5 as amended: deduplication is a no-op (and hence idempotent)
on module sets in which no two build defs share an order-only set, but
defs rewritten to a common aggregate share the aggregate as their new
order-only set, so a second application over a deduplicated set creates
one further phony aggregate per surviving group. -/
theorem deduplicateOrderOnlyDeps_second_pass :
    deduplicateOrderOnlyDeps disjointModules = ([], disjointModules) ∧
    deduplicateOrderOnlyDeps (deduplicateOrderOnlyDeps disjointModules).2 =
      ([], disjointModules) ∧
    (deduplicateOrderOnlyDeps (deduplicateOrderOnlyDeps sharedDModules).2).1.length = 1 := by
  decide

/-- Claim C6: for the S7 entry list the decision is made by the longest
matching prefix with the later entry winning among equal-length matches:
"a" is denied by "a", "a/c/F" is allowed by "a/c/F", "a/b/c" is allowed
by "a/b", "a/b/d" is denied by "a/b/d", an unmatched path is allowed with
deciding prefix "", and a later equal-length entry overrides an earlier
one. -/
theorem sourceRootDirAllowed_precedence :
    sourceRootDirAllowed s7dirs "a" = (false, "a") ∧
    sourceRootDirAllowed s7dirs "a/c/F" = (true, "a/c/F") ∧
    sourceRootDirAllowed s7dirs "a/b/c" = (true, "a/b") ∧
    sourceRootDirAllowed s7dirs "a/b/d" = (false, "a/b/d") ∧
    sourceRootDirAllowed s7dirs "zzz" = (true, "") ∧
    sourceRootDirAllowed (addSourceRootDirs ["a", "-a"]) "a/x" = (false, "a") := by decide

/-- Claim C9: with two files gated on distinct tags and each defining
module "foo", parsing with exactly one tag set succeeds with the one
"foo" from the file whose tag is set, while parsing with both tags set
yields the duplicate-module error. -/
theorem packageIncludes_gating :
    parseFileList ["use_dir1"] packageFiles [] = Except.ok [("foo", "dir1/Android.bp")] ∧
    parseFileList ["use_dir2"] packageFiles [] = Except.ok [("foo", "dir2/Android.bp")] ∧
    parseFileList ["use_dir1", "use_dir2"] packageFiles [] =
      Except.error "module \"foo\" already defined" :=
  ⟨rfl, rfl, rfl⟩

/-- The bucket-sorting fold preserves the length of the bucket list. -/
theorem foldlSetLength (globs : List GlobResult) :
    ∀ bs : List (List GlobResult),
      (globs.foldl (fun bs g => bs.set (globToBucket g) (bs.getD (globToBucket g) [] ++ [g]))
        bs).length = bs.length := by
  induction globs with
  | nil => intro bs; rfl
  | cons g gs ih =>
    intro bs
    rw [List.foldl_cons, ih, List.length_set]

theorem globBuckets_length (globs : List GlobResult) :
    (globBuckets globs).length = numGlobBuckets := by
  unfold globBuckets
  rw [foldlSetLength, List.length_replicate]

theorem zipWithPairFst {β : Type} (f : Nat → String) :
    ∀ (xs : List Nat) (ys : List β), xs.length = ys.length →
      (List.zipWith (fun i b => (f i, b)) xs ys).map Prod.fst = xs.map f := by
  intro xs
  induction xs with
  | nil => intro ys h; rfl
  | cons x xs ih =>
    intro ys h
    cases ys with
    | nil => simp at h
    | cons y ys =>
      simp only [List.zipWith_cons_cons, List.map_cons]
      rw [ih ys (by simpa using h)]

/-- Claim C10: globToBucket always returns a bucket index below
numGlobBuckets = 1024, so the per-bucket indexing in
GlobSingleton.GenerateBuildActions stays in bounds, and the generated
actions consist of exactly one file-list file and one glob rule per
bucket — the file-list names being exactly GlobFileListFiles — no matter
how many globs were run. -/
theorem globToBucket_bounds :
    (∀ g : GlobResult, globToBucket g < numGlobBuckets) ∧
    (∀ (globDir : String) (globs : List GlobResult),
      (generateBuildActions globDir globs).map Prod.fst = globFileListFiles globDir ∧
      (generateBuildActions globDir globs).length = numGlobBuckets) := by
  refine ⟨fun g => ?_, fun globDir globs => ⟨?_, ?_⟩⟩
  · unfold globToBucket
    exact Nat.mod_lt _ (by decide)
  · unfold generateBuildActions globFileListFiles
    exact zipWithPairFst (globBucketName globDir) (List.range numGlobBuckets)
      (globBuckets globs) (by rw [List.length_range, globBuckets_length])
  · unfold generateBuildActions
    rw [List.length_zipWith, List.length_range, globBuckets_length]
    exact Nat.min_self _
